import Mathlib

/-!
Verification of the `binding` Go package: a form-like value-to-struct binder.

The development shallowly embeds the package's source:
  * `bind.go`          — `Bind`, `getFieldName`, `isRequired`, `getBinding`,
                          `getDefaultBindingTag`;
  * `bindings.go`      — `bindInt`, `bindFloat`, `bindString`;
  * `binding_errors.go` — `BindingErrors.Error`, `BindingErrors.Field`;
  * the error types `InvalidBindingError`, `RequiredError`, `BindingError`.

Go reflection values are embedded as a closed tagged type `GoValue`; struct
fields are descriptors carrying the declared name, the tag list, the reflect
kind and an exported flag.  Machine integers are modelled as `Int` — the
standard-library `strconv.ParseInt` range checks are made explicit against
`2 ^ (bits - 1)`, so no overflow escapes the model.  Floating-point values are
carried symbolically (the accepted textual form), since no property proved
here inspects float numerics.  The mapper (lookup) function is instrumented:
`Bind` additionally returns the list of names it passed to the mapper, which
makes "the lookup function is never invoked" provable as `calls = []`.
-/

set_option maxRecDepth 4096

namespace Binding

/-- A subset of `reflect.Kind` sufficient for the package: the kinds that have
default bindings (signed ints, floats, string) plus kinds without one. -/
inductive Kind where
  | int | int8 | int16 | int32 | int64
  | float32 | float64
  | string
  | bool
  | uint
  | struct
  deriving DecidableEq, Repr

/-- Printed Go name of a kind, used in error messages
(`output should be struct type, but %s is given`). -/
def Kind.goName : Kind → String
  | .int => "int" | .int8 => "int8" | .int16 => "int16"
  | .int32 => "int32" | .int64 => "int64"
  | .float32 => "float32" | .float64 => "float64"
  | .string => "string" | .bool => "bool" | .uint => "uint"
  | .struct => "struct"

/-- A dynamically-typed Go value (`interface{}`) restricted to the scalar
types the package manipulates.  Floats carry their accepted textual form
symbolically; IEEE-754 numerics are not modelled (no claim inspects them). -/
inductive GoValue where
  | vInt (n : Int)
  | vInt8 (n : Int)
  | vInt16 (n : Int)
  | vInt32 (n : Int)
  | vInt64 (n : Int)
  | vFloat32 (text : String)
  | vFloat64 (text : String)
  | vString (s : String)
  | vBool (b : Bool)
  deriving DecidableEq, Repr

/-- Printed Go type of a dynamic value, used in the
`binding values of type %T ... is not supported` message. -/
def GoValue.goType : GoValue → String
  | .vInt _ => "int" | .vInt8 _ => "int8" | .vInt16 _ => "int16"
  | .vInt32 _ => "int32" | .vInt64 _ => "int64"
  | .vFloat32 _ => "float32" | .vFloat64 _ => "float64"
  | .vString _ => "string" | .vBool _ => "bool"

/-- `reflect.StructField`: declared name, struct-tag key/value pairs, kind,
and whether the field is exported (drives `reflect.Value.CanSet`). -/
structure StructField where
  name : String
  tags : List (String × String)
  kind : Kind
  exported : Bool := true
  deriving DecidableEq, Repr

/-- A struct value: its type name (for error messages) and its fields,
each a descriptor paired with the field's current value. -/
structure Record where
  typeName : String
  fields : List (StructField × GoValue)
  deriving DecidableEq, Repr

/-- Classification carried by `strconv.NumError.Err`. -/
inductive NumErrorKind where
  | badDigits            -- strconv.ErrSyntax: "invalid syntax"
  | outOfRange           -- strconv.ErrRange: "value out of range"
  | badBase (b : Int)    -- "invalid base %d"
  | badBitSize (b : Int) -- "invalid bit size %d"
  deriving DecidableEq, Repr

def NumErrorKind.message : NumErrorKind → String
  | .badDigits => "invalid syntax"
  | .outOfRange => "value out of range"
  | .badBase b => "invalid base " ++ toString b
  | .badBitSize b => "invalid bit size " ++ toString b

/-- The error values circulating in the package: `InvalidBindingError`,
`RequiredError`, `BindingError` (wrapping a cause), and the standard
library's `strconv.NumError` produced by the parsers. -/
inductive GoError where
  | invalidBinding (msg : String)
  | required (name : String)
  | bindingFailure (name : String) (cause : GoError)
  | numError (fn : String) (num : String) (kind : NumErrorKind)
  deriving DecidableEq, Repr

/-- Go's `%q` on the inputs used here (no escaping needed). -/
def goQuote (s : String) : String := "\"" ++ s ++ "\""

/-- Rendered message of each error value (`Error()` methods). -/
def GoError.message : GoError → String
  | .invalidBinding msg => msg
  | .required name => name ++ " — field required but not specified"
  | .bindingFailure name cause => name ++ " — " ++ cause.message
  | .numError fn num kind =>
      "strconv." ++ fn ++ ": parsing " ++ goQuote num ++ ": " ++ kind.message

/-- Is the error one of the two field-level kinds aggregated by `Bind`? -/
def GoError.isFieldLevel : GoError → Bool
  | .required _ => true
  | .bindingFailure _ _ => true
  | _ => false

/-- First-occurrence lookup in an association list, the read operation of a
Go map (and of the struct-tag table). -/
def goLookup {α : Type} : List (String × α) → String → Option α
  | [], _ => none
  | (k, v) :: rest, key => if k = key then some v else goLookup rest key

/-- Go map write `m[k] = v`: overwrite the existing entry for `k` in place,
or append a new one. -/
def mapInsert {α : Type} : List (String × α) → String → α → List (String × α)
  | [], k, v => [(k, v)]
  | (k', v') :: rest, k, v =>
      if k' = k then (k', v) :: rest else (k', v') :: mapInsert rest k v

/-- `strings.Split(s, ",")[0]`: the text before the first comma. -/
def commaHead (s : String) : String := String.mk (s.data.takeWhile (· ≠ ','))

/-- The tag-scanning loop of `getFieldName`, parameterised by the key list:
for each key in order, if the tag is present and its comma-head is non-empty
return it, otherwise continue; fall back to the declared field name. -/
def resolveTags (keys : List String) (field : StructField) : String :=
  match keys with
  | [] => field.name
  | k :: rest =>
      match goLookup field.tags k with
      | some v => if commaHead v ≠ "" then commaHead v else resolveTags rest field
      | none => resolveTags rest field

/-- `getFieldName` from `bind.go`: inspect `form`, `json`, `bson`, `yaml`,
`toml` in that order, taking the first non-empty comma-head, else the
declared field name. -/
def getFieldName (field : StructField) : String :=
  resolveTags ["form", "json", "bson", "yaml", "toml"] field

/-- `isRequired` from `bind.go`: the `required` tag is present with value
exactly `"true"`. -/
def isRequired (field : StructField) : Bool :=
  match goLookup field.tags "required" with
  | some v => v = "true"
  | none => false

/-- `getDefaultBindingTag` from `bind.go`: the default binding tag derived
from the field's kind; the map's zero value `""` for any other kind. -/
def getDefaultBindingTag (field : StructField) : String :=
  match field.kind with
  | .int => "int"
  | .int8 => "int:8"
  | .int16 => "int:16"
  | .int32 => "int:32"
  | .int64 => "int:64"
  | .float32 => "float:32"
  | .float64 => "float:64"
  | .string => "string"
  | _ => ""

/-- `strings.SplitN(tag, ":", 2)` followed by the `args[0]` / optional
`args[1]` extraction: name before the first colon, options after it
(empty when there is no colon). -/
def splitTag (tag : String) : String × String :=
  match tag.data.findIdx? (· = ':') with
  | some i => (String.mk (tag.data.take i), String.mk (tag.data.drop (i + 1)))
  | none => (tag, "")

/-- Value of a digit character in bases up to 36 (`0-9`, `a-z`, `A-Z`). -/
def digitVal (c : Char) : Option Nat :=
  if '0' ≤ c ∧ c ≤ '9' then some (c.toNat - '0'.toNat)
  else if 'a' ≤ c ∧ c ≤ 'z' then some (c.toNat - 'a'.toNat + 10)
  else if 'A' ≤ c ∧ c ≤ 'Z' then some (c.toNat - 'A'.toNat + 10)
  else none

/-- Accumulate digits of the given base; `none` on a character that is not a
digit of that base. -/
def digitsVal (base : Nat) (acc : Nat) : List Char → Option Nat
  | [] => some acc
  | c :: rest =>
      match digitVal c with
      | some d => if d < base then digitsVal base (acc * base + d) rest else none
      | none => none

/-- The digit-parsing core of `strconv.ParseUint` (after the sign was taken by
`ParseInt`): validate the base, apply base-0 prefix inference, and require at
least one digit.  Digit-group underscores (a base-0 nicety) are not modelled;
no call site here uses them. -/
def parseUintDigits (ds : List Char) (base : Int) : Except NumErrorKind Nat :=
  if base = 0 then
    match ds with
    | '0' :: x :: rest =>
        if x = 'x' ∨ x = 'X' then
          match rest with
          | [] => .error .badDigits
          | _ => match digitsVal 16 0 rest with
                 | some n => .ok n
                 | none => .error .badDigits
        else if x = 'o' ∨ x = 'O' then
          match rest with
          | [] => .error .badDigits
          | _ => match digitsVal 8 0 rest with
                 | some n => .ok n
                 | none => .error .badDigits
        else if x = 'b' ∨ x = 'B' then
          match rest with
          | [] => .error .badDigits
          | _ => match digitsVal 2 0 rest with
                 | some n => .ok n
                 | none => .error .badDigits
        else
          match digitsVal 8 0 (x :: rest) with
          | some n => .ok n
          | none => .error .badDigits
    | ['0'] => .ok 0
    | _ =>
        match ds, digitsVal 10 0 ds with
        | _ :: _, some n => .ok n
        | _, _ => .error .badDigits
  else if 2 ≤ base ∧ base ≤ 36 then
    match ds, digitsVal base.toNat 0 ds with
    | _ :: _, some n => .ok n
    | _, _ => .error .badDigits
  else .error (.badBase base)

/-- `strconv.ParseInt(s, base, bitSize)`: empty input is a syntax error; an
optional sign is taken; the digits are parsed; `bitSize` 0 means the platform
width (64 here); out-of-window bit sizes are rejected; the result must fit the
signed window `[-2^(bits-1), 2^(bits-1))`. -/
def parseInt (s : String) (base : Int) (bitSize : Int) : Except GoError Int :=
  if s = "" then .error (.numError "ParseInt" s .badDigits)
  else
    let cs := s.data
    let signed : Bool × List Char :=
      match cs with
      | '+' :: t => (false, t)
      | '-' :: t => (true, t)
      | _ => (false, cs)
    match parseUintDigits signed.2 base with
    | .error k => .error (.numError "ParseInt" s k)
    | .ok un =>
        let bits : Int := if bitSize = 0 then 64 else bitSize
        if bits < 1 ∨ 64 < bits then
          .error (.numError "ParseInt" s (.badBitSize bitSize))
        else
          let cutoff : Nat := 2 ^ (bits.toNat - 1)
          if ¬signed.1 ∧ cutoff ≤ un then .error (.numError "ParseInt" s .outOfRange)
          else if signed.1 ∧ cutoff < un then .error (.numError "ParseInt" s .outOfRange)
          else if signed.1 then .ok (-(un : Int)) else .ok (un : Int)

/-- Whitespace skipped by `fmt` scanning verbs. -/
def dropSpaces (cs : List Char) : List Char :=
  cs.dropWhile (fun c => c = ' ' ∨ c = '\t' ∨ c = '\n' ∨ c = '\r')

/-- Scan one base-10 integer (optional sign, at least one digit) the way the
`%d` verb does, returning the value and the unconsumed input. -/
def scanDecInt (cs : List Char) : Option (Int × List Char) :=
  let cs := dropSpaces cs
  match cs with
  | '-' :: rest =>
      match rest.takeWhile (·.isDigit), digitsVal 10 0 (rest.takeWhile (·.isDigit)) with
      | _ :: _, some n => some (-(n : Int), rest.dropWhile (·.isDigit))
      | _, _ => none
  | '+' :: rest =>
      match rest.takeWhile (·.isDigit), digitsVal 10 0 (rest.takeWhile (·.isDigit)) with
      | _ :: _, some n => some ((n : Int), rest.dropWhile (·.isDigit))
      | _, _ => none
  | _ =>
      match cs.takeWhile (·.isDigit), digitsVal 10 0 (cs.takeWhile (·.isDigit)) with
      | _ :: _, some n => some ((n : Int), cs.dropWhile (·.isDigit))
      | _, _ => none

/-- Result of scanning a binding-option string with `fmt.Sscanf`: either the
scanned values with defaults filled where the input ran out (Go reports these
as errors suffixed `EOF`, which `bindInt` / `bindFloat` ignore), or a fatal
scan error (anything else), which they turn into `InvalidBindingError`. -/
inductive ScanInts where
  | ok (fst snd : Int)
  | fatal (msg : String)
  deriving DecidableEq, Repr

/-- `fmt.Sscanf(opts, "%d,%d", &bits, &base)` with the EOF-suffix errors
already filtered the way `bindInt` filters them: running out of input keeps
the remaining defaults (`fst0`, `snd0`); a malformed token or a missing comma
is fatal. -/
def scanTwoInts (opts : String) (fst0 snd0 : Int) : ScanInts :=
  let cs := dropSpaces opts.data
  match cs with
  | [] => .ok fst0 snd0
  | _ =>
      match scanDecInt cs with
      | none => .fatal "expected integer"
      | some (a, rest) =>
          match rest with
          | [] => .ok a snd0
          | ',' :: rest2 =>
              match dropSpaces rest2 with
              | [] => .ok a snd0
              | rest2' =>
                  match scanDecInt rest2' with
                  | none => .fatal "expected integer"
                  | some (b, _) => .ok a b
          | _ => .fatal "input does not match format"

/-- `fmt.Sscanf(opts, "%d", &bits)` under the same EOF-filtering convention. -/
def scanOneInt (opts : String) (fst0 : Int) : ScanInts :=
  let cs := dropSpaces opts.data
  match cs with
  | [] => .ok fst0 0
  | _ =>
      match scanDecInt cs with
      | none => .fatal "expected integer"
      | some (a, _) => .ok a 0

/-- `BindFunc`: a binding (conversion) function — the mapped value (a dynamic
Go value) and the option string, to a converted value or an error. -/
def BindFunc : Type := GoValue → String → Except GoError GoValue

/-- `Bindings`: the Go map from binding name to binding function, modelled as
the association list the package iterates. -/
def Bindings : Type := List (String × BindFunc)

/-- `bindInt` from `bindings.go`: scan `"<bits>,<base>"` (defaults 0 and 10;
a fatal scan error becomes `InvalidBindingError`), insist the mapped value is
a string, `strconv.ParseInt` it, then narrow by the scanned bit count —
8/16/32/64 produce the sized type, anything else the platform `int`. -/
def bindInt (data : GoValue) (opts : String) : Except GoError GoValue :=
  match scanTwoInts opts 0 10 with
  | .fatal msg => .error (.invalidBinding msg)
  | .ok bits base =>
      match data with
      | .vString s =>
          match parseInt s base bits with
          | .error e => .error e
          | .ok result =>
              if bits = 8 then .ok (.vInt8 result)
              else if bits = 16 then .ok (.vInt16 result)
              else if bits = 32 then .ok (.vInt32 result)
              else if bits = 64 then .ok (.vInt64 result)
              else .ok (.vInt result)
      | _ =>
          .error (.invalidBinding
            ("only strings are supported, but " ++ data.goType ++ " given"))

/-- Acceptance of `strconv.ParseFloat` on decimal input: optional sign, then
digits with an optional fraction (at least one digit overall) and an optional
exponent, or the `inf` / `infinity` / `nan` words case-insensitively.
Hexadecimal floats and digit-group underscores are not modelled; no property
proved here exercises them. -/
def goFloatTextOk (s : String) : Bool :=
  let cs : List Char := match s.data with
    | '+' :: t => t
    | '-' :: t => t
    | t => t
  let lower := cs.map Char.toLower
  if lower = ['i', 'n', 'f'] ∨ lower = ['i', 'n', 'f', 'i', 'n', 'i', 't', 'y'] ∨
     lower = ['n', 'a', 'n'] then true
  else
    let intPart := cs.takeWhile (·.isDigit)
    let afterInt := cs.dropWhile (·.isDigit)
    let fracSplit : List Char × List Char :=
      match afterInt with
      | '.' :: t => (t.takeWhile (·.isDigit), t.dropWhile (·.isDigit))
      | t => ([], t)
    let fracPart := fracSplit.1
    let afterFrac := fracSplit.2
    if intPart.isEmpty ∧ fracPart.isEmpty then false
    else
      match afterFrac with
      | [] => true
      | e :: t =>
          if e = 'e' ∨ e = 'E' then
            let t := match t with
              | '+' :: u => u
              | '-' :: u => u
              | u => u
            ¬t.isEmpty ∧ t.all (·.isDigit)
          else false

/-- `bindFloat` from `bindings.go`: scan `"<bits>"` (default 32; fatal scan
errors become `InvalidBindingError`), insist the mapped value is a string,
`strconv.ParseFloat` it, and return a `float32` for 32, `float64` for 64,
`float32` for anything else.  The numeric value is kept symbolically as the
accepted text. -/
def bindFloat (data : GoValue) (opts : String) : Except GoError GoValue :=
  match scanOneInt opts 32 with
  | .fatal msg => .error (.invalidBinding msg)
  | .ok bits _ =>
      match data with
      | .vString s =>
          if goFloatTextOk s then
            if bits = 32 then .ok (.vFloat32 s)
            else if bits = 64 then .ok (.vFloat64 s)
            else .ok (.vFloat32 s)
          else .error (.numError "ParseFloat" s .badDigits)
      | _ =>
          .error (.invalidBinding
            ("only strings are supported, but " ++ data.goType ++ " given"))

/-- `bindString` from `bindings.go`: return the mapped value unchanged. -/
def bindString (data : GoValue) (_opts : String) : Except GoError GoValue :=
  .ok data

/-- The three built-ins pre-registered by `Bind` (the `Bindings` map literal
at the top of the function). -/
def builtinBindings : Bindings :=
  [("int", bindInt), ("float", bindFloat), ("string", bindString)]

/-- `FieldNameFunc`: maps a field descriptor to its external name. -/
def FieldNameFunc : Type := StructField → String

/-- `MapFunc`: the caller's lookup — a name to a dynamic value or absence
(`nil`). -/
def MapFunc : Type := String → Option GoValue

/-- The variadic `options ...interface{}` of `Bind`, restricted to the two
types its switch recognises. -/
inductive BindOption where
  | bindings (m : Bindings)
  | fieldNameFunc (f : FieldNameFunc)

/-- The inner loop of `Bind`'s options switch for a `Bindings` option:
`for key, binding := range option { bindings[key] = binding }`. -/
def insertAll (base : Bindings) : Bindings → Bindings
  | [] => base
  | (k, f) :: rest => insertAll (mapInsert base k f) rest

/-- The registry `Bind` ends up with: the built-ins, updated by every
`Bindings` option in order.  Constructed fresh on every call from the call's
own options, so registrations never leak across calls. -/
def mergedBindings (options : List BindOption) : Bindings :=
  go options builtinBindings
where
  go : List BindOption → Bindings → Bindings
    | [], bs => bs
    | .bindings m :: rest, bs => go rest (insertAll bs m)
    | .fieldNameFunc _ :: rest, bs => go rest bs

/-- The field-name resolver `Bind` ends up with: the default `getFieldName`,
replaced by every `FieldNameFunc` option in order (the last one wins). -/
def chosenFieldNameFunc (options : List BindOption) : FieldNameFunc :=
  go options getFieldName
where
  go : List BindOption → FieldNameFunc → FieldNameFunc
    | [], g => g
    | .fieldNameFunc h :: rest, _ => go rest h
    | .bindings _ :: rest, g => go rest g

/-- `getBinding` from `bind.go`: the `binding` tag (or, when it is empty, the
kind-derived default tag) is split at the first colon into a registry key and
an option string; a registered key yields the closure
`fun data => binding data opts`, an unregistered one yields nothing. -/
def getBinding (field : StructField) (bindings : Bindings) :
    Option (String → Except GoError GoValue) :=
  let tag := (goLookup field.tags "binding").getD ""
  let tag := if tag = "" then getDefaultBindingTag field else tag
  let split := splitTag tag
  match goLookup bindings split.1 with
  | some binding => some (fun data => binding (.vString data) split.2)
  | none => none

/-- `reflect.Value.Set` succeeds exactly when the dynamic type of the value
matches the field's type; otherwise it panics. -/
def typeMatches (k : Kind) (v : GoValue) : Bool :=
  match k, v with
  | .int, .vInt _ => true
  | .int8, .vInt8 _ => true
  | .int16, .vInt16 _ => true
  | .int32, .vInt32 _ => true
  | .int64, .vInt64 _ => true
  | .float32, .vFloat32 _ => true
  | .float64, .vFloat64 _ => true
  | .string, .vString _ => true
  | .bool, .vBool _ => true
  | _, _ => false

/-- Result of the per-field loop: the (possibly updated) fields together with
the accumulated field-level errors and mapper calls; or an immediate abort
with an `InvalidBindingError` message; or a reflection panic. -/
inductive LoopRes where
  | done (fs : List (StructField × GoValue)) (errs : List GoError) (calls : List String)
  | abort (msg : String) (fs : List (StructField × GoValue)) (calls : List String)
  | panicRes (fs : List (StructField × GoValue)) (calls : List String)
  deriving Repr

/-- The `for i := 0; i < structType.NumField(); i++` body of `Bind`:
resolve the name (empty names skip the field); resolve the binding function
(an unregistered key aborts); call the mapper (absence appends a required
error for required fields, otherwise skips); non-string data aborts; a
conversion failure appends a binding error; an unexported field aborts before
assignment; a converted value of the wrong dynamic type makes
`reflect.Value.Set` panic; otherwise the field is assigned. -/
def bindFields (tn : String) (bs : Bindings) (fnf : FieldNameFunc)
    (mapper : MapFunc) : List (StructField × GoValue) → LoopRes
  | [] => .done [] [] []
  | (f, v) :: rest =>
      let name := fnf f
      if name = "" then
        match bindFields tn bs fnf mapper rest with
        | .done fs errs calls => .done ((f, v) :: fs) errs calls
        | .abort m fs calls => .abort m ((f, v) :: fs) calls
        | .panicRes fs calls => .panicRes ((f, v) :: fs) calls
      else
        match getBinding f bs with
        | none =>
            .abort ("binding for " ++ tn ++ "." ++ f.name ++
              " is specified but not registered") ((f, v) :: rest) []
        | some binding =>
            match mapper name with
            | none =>
                let newErrs := if isRequired f then [GoError.required name] else []
                match bindFields tn bs fnf mapper rest with
                | .done fs errs calls => .done ((f, v) :: fs) (newErrs ++ errs) (name :: calls)
                | .abort m fs calls => .abort m ((f, v) :: fs) (name :: calls)
                | .panicRes fs calls => .panicRes ((f, v) :: fs) (name :: calls)
            | some (.vString s) =>
                match binding s with
                | .error e =>
                    match bindFields tn bs fnf mapper rest with
                    | .done fs errs calls =>
                        .done ((f, v) :: fs) (GoError.bindingFailure name e :: errs) (name :: calls)
                    | .abort m fs calls => .abort m ((f, v) :: fs) (name :: calls)
                    | .panicRes fs calls => .panicRes ((f, v) :: fs) (name :: calls)
                | .ok value =>
                    if f.exported then
                      if typeMatches f.kind value then
                        match bindFields tn bs fnf mapper rest with
                        | .done fs errs calls => .done ((f, value) :: fs) errs (name :: calls)
                        | .abort m fs calls => .abort m ((f, value) :: fs) (name :: calls)
                        | .panicRes fs calls => .panicRes ((f, value) :: fs) (name :: calls)
                      else
                        .panicRes ((f, v) :: rest) [name]
                    else
                      .abort ("field " ++ tn ++ "." ++ f.name ++
                        " is unexported and can not be set") ((f, v) :: rest) [name]
            | some d =>
                .abort ("binding values of type " ++ d.goType ++ " (" ++ tn ++
                  "." ++ f.name ++ ") is not supported") ((f, v) :: rest) [name]

/-- The target argument `output interface{}` of `Bind`, classified the way
the function's reflection checks see it: the untyped absent value, a
non-pointer value of some kind, a typed null pointer, a pointer to a
non-struct value, or a pointer to a struct (with the
`reflect.Value.CanSet` outcome of its pointee). -/
inductive Target where
  | untypedNil
  | nonPtr (k : Kind)
  | nilPtr
  | ptrToNonStruct (k : Kind)
  | ptrToStruct (r : Record) (canSet : Bool)
  deriving DecidableEq, Repr

/-- What `Bind` returns: `nil`, an `InvalidBindingError`, or the
`BindingErrors` aggregate. -/
inductive BindReturn where
  | success
  | invalid (msg : String)
  | fieldErrors (es : List GoError)
  deriving DecidableEq, Repr

/-- A `Bind` call either returns (with the final state of the target and the
list of names passed to the mapper, in call order) or panics. -/
inductive Outcome where
  | ret (e : BindReturn) (out : Target) (calls : List String)
  | panicked (out : Target) (calls : List String)
  deriving DecidableEq, Repr

/-- `Bind` from `bind.go`.  The options are folded into the registry and the
name resolver first.  A non-pointer (or untyped-nil) target returns
`specified output is not a pointer`; a typed null pointer panics, because
`reflect.Indirect` yields the zero `Value` and `Value.Type` panics on it; a
pointer to a non-struct returns `output should be struct type...`; an
unsettable struct returns `output can not be set`.  Otherwise the fields are
processed by `bindFields` and the collected errors (if any) are returned. -/
def Bind (output : Target) (mapper : MapFunc) (options : List BindOption) : Outcome :=
  let bindings := mergedBindings options
  let fnf := chosenFieldNameFunc options
  match output with
  | .untypedNil => .ret (.invalid "specified output is not a pointer") output []
  | .nonPtr k => .ret (.invalid "specified output is not a pointer") (.nonPtr k) []
  | .nilPtr => .panicked .nilPtr []
  | .ptrToNonStruct k =>
      .ret (.invalid ("output should be struct type, but " ++ k.goName ++ " is given"))
        (.ptrToNonStruct k) []
  | .ptrToStruct r false => .ret (.invalid "output can not be set") (.ptrToStruct r false) []
  | .ptrToStruct r true =>
      match bindFields r.typeName bindings fnf mapper r.fields with
      | .done fs errs calls =>
          .ret (if errs.isEmpty then .success else .fieldErrors errs)
            (.ptrToStruct { r with fields := fs } true) calls
      | .abort msg fs calls =>
          .ret (.invalid msg) (.ptrToStruct { r with fields := fs } true) calls
      | .panicRes fs calls =>
          .panicked (.ptrToStruct { r with fields := fs } true) calls

/-- `BindingErrors.Field` from `binding_errors.go`: scan the aggregate and
return the first `RequiredError` or `BindingError` whose name equals the
queried name; entries of any other kind are skipped; `nil` if none match. -/
def BindingErrors.errorFor : List GoError → String → Option GoError
  | [], _ => none
  | e :: rest, name =>
      match e with
      | .required n => if n == name then some (.required n) else BindingErrors.errorFor rest name
      | .bindingFailure n c =>
          if n == name then some (.bindingFailure n c) else BindingErrors.errorFor rest name
      | _ => BindingErrors.errorFor rest name

/-- `BindingErrors.Error` from `binding_errors.go`: collect each entry's
message in order and join with `"; "`. -/
def BindingErrors.errorString (errors : List GoError) : String :=
  String.intercalate "; " (errors.foldl (fun msgs err => msgs ++ [err.message]) [])

/-! ### Specification-side definitions

These mirror the spec's wording rather than the source, for the refinement
claims that compare the two. -/

/-- Spec reading of the default name resolver: the first key in the priority
list whose tag value (comma-suffix stripped) is non-empty, else the declared
field name. -/
def specResolve (keys : List String) (field : StructField) : String :=
  (keys.findSome? (fun k =>
    match goLookup field.tags k with
    | some v => if commaHead v = "" then none else some (commaHead v)
    | none => none)).getD field.name

/-- Spec reading of the claimed fixed priority list: the external-form name
and the four alternate serialization annotations, in order. -/
def specFieldName (field : StructField) : String :=
  specResolve ["form", "json", "bson", "yaml", "toml"] field

/-- The last entry for `key` inside one caller-supplied `Bindings` set. -/
def overrideIn (key : String) : Bindings → Option BindFunc
  | [] => none
  | (k, f) :: rest =>
      match overrideIn key rest with
      | some g => some g
      | none => if k = key then some f else none

/-- The last caller-supplied override for `key` across the whole options
list, in option order. -/
def lastOverride (key : String) : List BindOption → Option BindFunc
  | [] => none
  | .bindings m :: rest =>
      match lastOverride key rest with
      | some g => some g
      | none => overrideIn key m
  | .fieldNameFunc _ :: rest => lastOverride key rest

/-- Is the error a field-level entry carrying exactly this name? -/
def isFieldNamed (name : String) (e : GoError) : Bool :=
  match e with
  | .required n => n == name
  | .bindingFailure n _ => n == name
  | _ => false

/-- Every entry of a returned aggregate is field-level (vacuously true for
the other outcomes). -/
def Outcome.aggFieldLevelOnly : Outcome → Bool
  | .ret (.fieldErrors es) _ _ => es.all GoError.isFieldLevel
  | _ => true

/-- What a `Bind` call returned, when it returned (not panicked). -/
def Outcome.bindReturn : Outcome → Option BindReturn
  | .ret e _ _ => some e
  | .panicked _ _ => none

/-- Final state of the target after a `Bind` call. -/
def Outcome.finalTarget : Outcome → Target
  | .ret _ t _ => t
  | .panicked t _ => t

/-! ### Claims -/

/-- C1: a record with an int field whose lookup yields `"???"`, a required
string field whose lookup is absent, and an int field whose lookup yields
`"42"` — `Bind` returns an aggregate of exactly two entries, the binding
failure for the first field then the required-but-missing for the second, in
that order, and the third field is assigned its converted value. -/
theorem C1_mixed_errors :
    Bind
      (.ptrToStruct
        ⟨"User",
          [(⟨"Age", [], .int, true⟩, .vInt 0),
           (⟨"Name", [("required", "true")], .string, true⟩, .vString ""),
           (⟨"Height", [], .int, true⟩, .vInt 0)]⟩ true)
      (fun n =>
        if n = "Age" then some (.vString "???")
        else if n = "Height" then some (.vString "42") else none)
      [] =
    .ret
      (.fieldErrors
        [.bindingFailure "Age" (.numError "ParseInt" "???" .badDigits),
         .required "Name"])
      (.ptrToStruct
        ⟨"User",
          [(⟨"Age", [], .int, true⟩, .vInt 0),
           (⟨"Name", [("required", "true")], .string, true⟩, .vString ""),
           (⟨"Height", [], .int, true⟩, .vInt 42)]⟩ true)
      ["Age", "Name", "Height"] := by
  decide

/-- C6: integer fields of widths 8, 16, 32 and 64 bound from the decimal
text of each width's maximum signed value receive exactly that maximum at
the field's native width, and the bind succeeds. -/
theorem C6_int_max_widths :
    Bind
      (.ptrToStruct
        ⟨"Limits",
          [(⟨"Age8", [], .int8, true⟩, .vInt8 0),
           (⟨"Age16", [], .int16, true⟩, .vInt16 0),
           (⟨"Age32", [], .int32, true⟩, .vInt32 0),
           (⟨"Age64", [], .int64, true⟩, .vInt64 0)]⟩ true)
      (fun n =>
        if n = "Age8" then some (.vString "127")
        else if n = "Age16" then some (.vString "32767")
        else if n = "Age32" then some (.vString "2147483647")
        else if n = "Age64" then some (.vString "9223372036854775807") else none)
      [] =
    .ret .success
      (.ptrToStruct
        ⟨"Limits",
          [(⟨"Age8", [], .int8, true⟩, .vInt8 127),
           (⟨"Age16", [], .int16, true⟩, .vInt16 32767),
           (⟨"Age32", [], .int32, true⟩, .vInt32 2147483647),
           (⟨"Age64", [], .int64, true⟩, .vInt64 9223372036854775807)]⟩ true)
      ["Age8", "Age16", "Age32", "Age64"] := by
  decide

/-- C9: an `int64` field annotated `binding:"int"` (no width option) makes
`bindInt` return a platform-width `int`, whose dynamic type differs from the
field's `int64`; the assignment step then panics instead of returning any
error. -/
theorem C9_type_mismatch_panics :
    Bind
      (.ptrToStruct ⟨"User", [(⟨"Age", [("binding", "int")], .int64, true⟩, .vInt64 0)]⟩ true)
      (fun _ => some (.vString "5"))
      [] =
    .panicked
      (.ptrToStruct ⟨"User", [(⟨"Age", [("binding", "int")], .int64, true⟩, .vInt64 0)]⟩ true)
      ["Age"] := by
  decide

/-- C4 (counterexample): a typed null pointer to a struct is a null
reference, yet `Bind` panics on it (`reflect.Value.Type` on the zero value
produced by `reflect.Indirect`) instead of returning an
invalid-configuration error. -/
theorem C4_cex_typed_nil_panics :
    Bind .nilPtr (fun _ => none) [] = .panicked .nilPtr [] := rfl

/-- C4 (amended): a scalar or any non-pointer value, an untyped absent
reference, a pointer to a non-struct, and an unsettable struct each make
`Bind` fail immediately with an invalid-configuration error, with no field
processed and the lookup function never invoked; a typed null pointer
instead panics, likewise before any lookup. -/
theorem C4_invalid_targets_fail_fast :
    ∀ (mapper : MapFunc) (options : List BindOption) (k : Kind) (r : Record),
      Bind .untypedNil mapper options =
        .ret (.invalid "specified output is not a pointer") .untypedNil [] ∧
      Bind (.nonPtr k) mapper options =
        .ret (.invalid "specified output is not a pointer") (.nonPtr k) [] ∧
      Bind (.ptrToNonStruct k) mapper options =
        .ret (.invalid ("output should be struct type, but " ++ k.goName ++ " is given"))
          (.ptrToNonStruct k) [] ∧
      Bind (.ptrToStruct r false) mapper options =
        .ret (.invalid "output can not be set") (.ptrToStruct r false) [] ∧
      Bind .nilPtr mapper options = .panicked .nilPtr [] := by
  intro mapper options k r
  exact ⟨rfl, rfl, rfl, rfl, rfl⟩

/-- C10: a field whose kind has no default binding tag and which carries no
`binding` annotation, but whose resolved name is non-empty, makes `Bind`
abort the whole call with the `specified but not registered`
invalid-configuration error — for every mapper, and without ever invoking
the lookup function (the returned call list is empty). -/
theorem C10_unregistered_default_aborts (f : StructField) (v : GoValue)
    (tn : String) (mapper : MapFunc)
    (h1 : (goLookup f.tags "binding").getD "" = "")
    (h2 : getDefaultBindingTag f = "")
    (h3 : getFieldName f ≠ "") :
    Bind (.ptrToStruct ⟨tn, [(f, v)]⟩ true) mapper [] =
      .ret
        (.invalid ("binding for " ++ tn ++ "." ++ f.name ++
          " is specified but not registered"))
        (.ptrToStruct ⟨tn, [(f, v)]⟩ true) [] := by
  have hsplit : splitTag "" = ("", "") := rfl
  have hlook : goLookup builtinBindings "" = none := rfl
  have hb : getBinding f builtinBindings = none := by
    simp [getBinding, h1, h2, hsplit, hlook]
  simp [Bind, mergedBindings, mergedBindings.go, chosenFieldNameFunc,
    chosenFieldNameFunc.go, bindFields, h3, hb]

/-- C10 (witness): the theorem applied to a concrete `bool` field. -/
theorem C10_witness :
    Bind (.ptrToStruct ⟨"S", [(⟨"Flag", [], .bool, true⟩, .vBool false)]⟩ true)
      (fun _ => none) [] =
      .ret
        (.invalid ("binding for " ++ "S" ++ "." ++ "Flag" ++
          " is specified but not registered"))
        (.ptrToStruct ⟨"S", [(⟨"Flag", [], .bool, true⟩, .vBool false)]⟩ true) [] :=
  C10_unregistered_default_aborts ⟨"Flag", [], .bool, true⟩ (.vBool false) "S"
    (fun _ => none) (by decide) (by decide) (by decide)

/-- The message-collecting loop of `BindingErrors.Error` is a map. -/
theorem foldl_messages (l : List GoError) :
    ∀ acc : List String,
      l.foldl (fun msgs err => msgs ++ [err.message]) acc = acc ++ l.map GoError.message := by
  induction l with
  | nil => intro acc; simp
  | cons e rest ih => intro acc; simp [List.foldl_cons, ih]

/-- `BindingErrors.Field` scans for the first field-level entry with the
queried name. -/
theorem errorFor_eq_find (errors : List GoError) (name : String) :
    BindingErrors.errorFor errors name = errors.find? (isFieldNamed name) := by
  induction errors with
  | nil => rfl
  | cons e rest ih =>
      cases e with
      | required n =>
          cases hn : n == name <;>
            simp [BindingErrors.errorFor, List.find?, isFieldNamed, hn, ih]
      | bindingFailure n c =>
          cases hn : n == name <;>
            simp [BindingErrors.errorFor, List.find?, isFieldNamed, hn, ih]
      | invalidBinding m =>
          simp [BindingErrors.errorFor, List.find?, isFieldNamed, ih]
      | numError fn num k =>
          simp [BindingErrors.errorFor, List.find?, isFieldNamed, ih]

/-- C8: for every aggregate and every field name, the lookup-by-name
operation returns the first field-level entry (required-but-missing or
binding-failure) whose name equals the queried name — `none` when no entry
matches — and the aggregate's rendered message is the entries' messages
joined in order with semicolons. -/
theorem C8_error_lookup_and_message (errors : List GoError) (name : String) :
    BindingErrors.errorFor errors name = errors.find? (isFieldNamed name) ∧
    BindingErrors.errorString errors =
      String.intercalate "; " (errors.map GoError.message) := by
  refine ⟨errorFor_eq_find errors name, ?_⟩
  simp [BindingErrors.errorString, foldl_messages]

/-- Reading a Go map after one write: the written key yields the new value,
every other key is unaffected. -/
theorem goLookup_mapInsert {α : Type} (m : List (String × α)) (k : String) (v : α)
    (key : String) :
    goLookup (mapInsert m k v) key = if k = key then some v else goLookup m key := by
  induction m with
  | nil => simp [mapInsert, goLookup]
  | cons kv rest ih =>
      obtain ⟨k1, v1⟩ := kv
      by_cases h1 : k1 = k <;> by_cases h2 : k = key <;>
        simp_all [mapInsert, goLookup]

/-- Reading the registry after folding one caller-supplied `Bindings` set
into it: the set's last entry for the key wins, else the base registry. -/
theorem goLookup_insertAll (m : Bindings) :
    ∀ (base : Bindings) (key : String),
      goLookup (insertAll base m) key =
        match overrideIn key m with
        | some f => some f
        | none => goLookup base key := by
  induction m with
  | nil => intro base key; simp [insertAll, overrideIn]
  | cons kv rest ih =>
      intro base key
      obtain ⟨k, f⟩ := kv
      simp only [insertAll, overrideIn]
      rw [ih]
      cases hov : overrideIn key rest with
      | some g => simp
      | none =>
          by_cases hk : k = key <;> simp [goLookup_mapInsert, hk]

/-- Reading the registry built from a whole options list over any base:
the last override across the options wins, else the base. -/
theorem goLookup_mergedGo (options : List BindOption) :
    ∀ (base : Bindings) (key : String),
      goLookup (mergedBindings.go options base) key =
        match lastOverride key options with
        | some f => some f
        | none => goLookup base key := by
  induction options with
  | nil => intro base key; simp [mergedBindings.go, lastOverride]
  | cons o rest ih =>
      intro base key
      cases o with
      | bindings m =>
          simp only [mergedBindings.go, lastOverride]
          rw [ih, goLookup_insertAll]
          cases lastOverride key rest <;> cases overrideIn key m <;> simp
      | fieldNameFunc g =>
          simp only [mergedBindings.go, lastOverride]
          exact ih base key

/-- C7: the registry a bind call uses is a pure function of that call's own
options — built fresh from exactly the three built-ins `int`, `float`,
`string` — and a caller-supplied entry for a key replaces the built-in
(the last override across the options wins); keys nobody registered resolve
to the built-ins, i.e. to nothing beyond the three. -/
theorem C7_registry_merge :
    (∀ (options : List BindOption) (key : String),
        goLookup (mergedBindings options) key =
          match lastOverride key options with
          | some f => some f
          | none => goLookup builtinBindings key) ∧
    mergedBindings [] = builtinBindings ∧
    builtinBindings.map Prod.fst = ["int", "float", "string"] := by
  refine ⟨fun options key => ?_, rfl, rfl⟩
  exact goLookup_mergedGo options builtinBindings key

/-- A resolver whose key list misses a field's only tag key falls back to
the declared field name. -/
theorem specResolve_single_miss (keys : List String) (k nm val : String)
    (h : k ∉ keys) :
    specResolve keys ⟨nm, [(k, val)], .string, true⟩ = nm := by
  induction keys with
  | nil => simp [specResolve]
  | cons a rest ih =>
      have hak : ¬(k = a) := fun hh => h (by simp [hh])
      have h2 : k ∉ rest := fun hh => h (List.mem_cons_of_mem _ hh)
      have hga : goLookup [(k, val)] a = none := by simp [goLookup, hak]
      simp only [specResolve, List.findSome?_cons, hga] at *
      exact ih h2

/-- The source's tag-scanning loop agrees with the spec-side
first-non-empty description on every key list. -/
theorem resolveTags_eq_specResolve (keys : List String) (f : StructField) :
    resolveTags keys f = specResolve keys f := by
  induction keys with
  | nil => simp [resolveTags, specResolve]
  | cons k rest ih =>
      simp only [resolveTags, specResolve, List.findSome?_cons] at *
      cases h : goLookup f.tags k with
      | none => simpa [h] using ih
      | some v =>
          by_cases hc : commaHead v = ""
          · simpa [h, hc] using ih
          · simp [h, hc]

/-- C5 (counterexample): no choice of exactly three alternate annotation
keys after the external-form key reproduces the default resolver — it
consults four alternates (`json`, `bson`, `yaml`, `toml`), each of which can
determine the resolved name on its own. -/
theorem C5_cex_not_three_alternates :
    ¬ ∃ k1 k2 k3 : String, ∀ f : StructField,
        getFieldName f = specResolve ["form", k1, k2, k3] f := by
  rintro ⟨k1, k2, k3, h⟩
  have key_mem : ∀ k : String, k ≠ "form" →
      getFieldName ⟨"F", [(k, "x")], .string, true⟩ = "x" →
      k ∈ [k1, k2, k3] := by
    intro k hkf hgx
    by_contra hm
    have hnotin : k ∉ ["form", k1, k2, k3] := by
      intro hmem
      simp only [List.mem_cons, List.not_mem_nil, or_false] at hmem
      rcases hmem with rfl | hmem
      · exact hkf rfl
      · exact hm (by simpa using hmem)
    have hsp : specResolve ["form", k1, k2, k3] ⟨"F", [(k, "x")], .string, true⟩ = "x" :=
      (h _).symm.trans hgx
    rw [specResolve_single_miss _ _ _ _ hnotin] at hsp
    exact absurd hsp (by decide)
  have mj := key_mem "json" (by decide) (by decide)
  have mb := key_mem "bson" (by decide) (by decide)
  have my := key_mem "yaml" (by decide) (by decide)
  have mt := key_mem "toml" (by decide) (by decide)
  have hsub : (["json", "bson", "yaml", "toml"] : List String).toFinset ⊆
      ([k1, k2, k3] : List String).toFinset := by
    intro x hx
    simp only [List.mem_toFinset] at *
    simp only [List.mem_cons, List.not_mem_nil, or_false] at hx
    rcases hx with rfl | rfl | rfl | rfl
    exacts [mj, mb, my, mt]
  have hcard := Finset.card_le_card hsub
  have h4 : (["json", "bson", "yaml", "toml"] : List String).toFinset.card = 4 := by decide
  have h3 : ([k1, k2, k3] : List String).toFinset.card ≤ 3 := by
    calc ([k1, k2, k3] : List String).toFinset.card
        ≤ ([k1, k2, k3] : List String).length := List.toFinset_card_le _
      _ = 3 := rfl
  omega

/-- C5 (amended): the default resolver inspects the external-form key and
then FOUR alternate serialization-name annotations (`json`, `bson`, `yaml`,
`toml`), in that fixed priority, returning the first non-empty value with
any comma-separated suffix stripped, and falls back to the field's declared
name when no annotation yields a non-empty name. -/
theorem C5_name_resolution_priority (f : StructField) :
    getFieldName f = specFieldName f :=
  resolveTags_eq_specResolve _ f

/-- Every error the field loop accumulates into a `done` result is one of
the two field-level kinds. -/
theorem bindFields_done_fieldLevel (tn : String) (bs : Bindings)
    (fnf : FieldNameFunc) (m : MapFunc) :
    ∀ (fs fs' : List (StructField × GoValue)) (errs : List GoError)
      (calls : List String),
      bindFields tn bs fnf m fs = .done fs' errs calls →
      errs.all GoError.isFieldLevel = true := by
  intro fs
  induction fs with
  | nil =>
      intro fs' errs calls h
      cases h
      rfl
  | cons fv rest ih =>
      intro fs' errs calls h
      obtain ⟨f, v⟩ := fv
      rcases hrec : bindFields tn bs fnf m rest with
        ⟨fs0, errs0, calls0⟩ | ⟨m0, fs0, calls0⟩ | ⟨fs0, calls0⟩ <;>
        · simp only [bindFields, hrec] at h
          repeat' split at h
          all_goals cases h
          all_goals simp [List.all_append, List.all_cons, GoError.isFieldLevel,
            ih _ _ _ hrec]

/-- C2 (counterexample): a malformed conversion-option annotation
(`binding:"int:x"`) is an invalid-configuration condition, yet `Bind` does
not abort and return the invalid-configuration error alone — the error
becomes the cause of a field-level binding-failure entry in the returned
aggregate. -/
theorem C2_cex_malformed_opts_aggregated :
    Bind
      (.ptrToStruct
        ⟨"Opts", [(⟨"Age", [("binding", "int:x")], .int, true⟩, .vInt 0)]⟩ true)
      (fun _ => some (.vString "5")) [] =
    .ret (.fieldErrors [.bindingFailure "Age" (.invalidBinding "expected integer")])
      (.ptrToStruct
        ⟨"Opts", [(⟨"Age", [("binding", "int:x")], .int, true⟩, .vInt 0)]⟩ true)
      ["Age"] := by
  decide

/-- C2 (amended): an invalid-configuration error is never itself an entry of
a returned aggregate — every aggregate entry is field-level (required or
binding-failure) — and the invalid-configuration conditions `Bind` checks
itself (non-struct target, unregistered key, non-text lookup value,
unsettable field) abort immediately with that error alone; but a malformed
conversion-option annotation does not abort: the conversion function's
invalid-configuration error is wrapped as the cause of a field-level entry. -/
theorem C2_invalid_never_aggregate_entry :
    ∀ (t : Target) (m : MapFunc) (o : List BindOption),
      (Bind t m o).aggFieldLevelOnly = true := by
  intro t m o
  cases t with
  | untypedNil => rfl
  | nonPtr k => rfl
  | nilPtr => rfl
  | ptrToNonStruct k => rfl
  | ptrToStruct r canSet =>
      cases canSet with
      | false => rfl
      | true =>
          simp only [Bind]
          rcases hrec : bindFields r.typeName (mergedBindings o)
              (chosenFieldNameFunc o) m r.fields with
            ⟨fs0, errs0, calls0⟩ | ⟨m0, fs0, calls0⟩ | ⟨fs0, calls0⟩
          · have hall := bindFields_done_fieldLevel _ _ _ _ _ _ _ _ hrec
            by_cases he : errs0.isEmpty <;>
              simp [Outcome.aggFieldLevelOnly, hrec, he, hall]
          · simp [Outcome.aggFieldLevelOnly, hrec]
          · simp [Outcome.aggFieldLevelOnly, hrec]

/-- With a lookup that always returns absence, a field list with no required
fields and fully resolvable bindings passes through the loop unchanged and
error-free. -/
theorem bindFields_absent (tn : String) (bs : Bindings) (fnf : FieldNameFunc) :
    ∀ fs : List (StructField × GoValue),
      (∀ fv ∈ fs, isRequired fv.1 = false) →
      (∀ fv ∈ fs, fnf fv.1 ≠ "" → (getBinding fv.1 bs).isSome) →
      ∃ calls, bindFields tn bs fnf (fun _ => none) fs = .done fs [] calls := by
  intro fs
  induction fs with
  | nil => intro _ _; exact ⟨[], rfl⟩
  | cons fv rest ih =>
      intro hreq hbind
      obtain ⟨f, v⟩ := fv
      obtain ⟨calls, hc⟩ := ih (fun x hx => hreq x (List.mem_cons_of_mem _ hx))
        (fun x hx => hbind x (List.mem_cons_of_mem _ hx))
      by_cases hn : fnf f = ""
      · exact ⟨calls, by simp [bindFields, hn, hc]⟩
      · have hs := hbind (f, v) (List.mem_cons_self _ _) hn
        obtain ⟨b, hb⟩ := Option.isSome_iff_exists.mp hs
        have hr : isRequired f = false := hreq (f, v) (List.mem_cons_self _ _)
        refine ⟨fnf f :: calls, ?_⟩
        simp [bindFields, hn, hb, hc, hr]

/-- C3 (counterexample): a record with no required fields (a single `bool`
field) and a lookup returning absence for every name does NOT bind
error-free — the `bool` kind has no default binding, so `Bind` aborts with
an invalid-configuration error. -/
theorem C3_cex_unregistered_kind :
    Bind (.ptrToStruct ⟨"S", [(⟨"Pick", [], .bool, true⟩, .vBool false)]⟩ true)
      (fun _ => none) [] =
    .ret (.invalid "binding for S.Pick is specified but not registered")
      (.ptrToStruct ⟨"S", [(⟨"Pick", [], .bool, true⟩, .vBool false)]⟩ true) [] := by
  decide

/-- C3 (amended): for every record with no required fields all of whose
fields have resolvable conversion functions (every field with a non-empty
resolved name finds its binding in the registry), and a lookup returning
absence for every name, `Bind` returns no error and leaves every field's
value unchanged. -/
theorem C3_no_required_absent_unchanged (r : Record)
    (hreq : ∀ fv ∈ r.fields, isRequired fv.1 = false)
    (hbind : ∀ fv ∈ r.fields, getFieldName fv.1 ≠ "" →
      (getBinding fv.1 builtinBindings).isSome) :
    (Bind (.ptrToStruct r true) (fun _ => none) []).bindReturn = some .success ∧
    (Bind (.ptrToStruct r true) (fun _ => none) []).finalTarget =
      .ptrToStruct r true := by
  obtain ⟨calls, hc⟩ :=
    bindFields_absent r.typeName builtinBindings getFieldName r.fields hreq hbind
  have hc2 : bindFields r.typeName (mergedBindings []) (chosenFieldNameFunc [])
      (fun _ => none) r.fields = .done r.fields [] calls := hc
  have hb : Bind (.ptrToStruct r true) (fun _ => none) [] =
      .ret .success (.ptrToStruct r true) calls := by
    simp [Bind, hc2]
  rw [hb]
  exact ⟨rfl, rfl⟩

/-- C3 (witness): the amended theorem applied to a concrete two-field record
holding caller-set values. -/
theorem C3_witness :
    (Bind (.ptrToStruct ⟨"User",
        [(⟨"Age", [], .int, true⟩, .vInt 1),
         (⟨"Name", [], .string, true⟩, .vString "John Doe Jr.")]⟩ true)
      (fun _ => none) []).bindReturn = some .success ∧
    (Bind (.ptrToStruct ⟨"User",
        [(⟨"Age", [], .int, true⟩, .vInt 1),
         (⟨"Name", [], .string, true⟩, .vString "John Doe Jr.")]⟩ true)
      (fun _ => none) []).finalTarget =
      .ptrToStruct ⟨"User",
        [(⟨"Age", [], .int, true⟩, .vInt 1),
         (⟨"Name", [], .string, true⟩, .vString "John Doe Jr.")]⟩ true :=
  C3_no_required_absent_unchanged
    ⟨"User", [(⟨"Age", [], .int, true⟩, .vInt 1),
      (⟨"Name", [], .string, true⟩, .vString "John Doe Jr.")]⟩
    (by decide) (by decide)

end Binding
